import Mathlib

set_option maxHeartbeats 1000000
set_option maxRecDepth 4000

/-!
Verification of the vanilla rule-based validation engine from
src/pages/forms/VanillaValidation.tsx.

Field value sets, schemas and error reports are association lists kept in
key insertion order, matching iteration over the keys of a plain object.
Reading a missing key yields Option.none, matching the undefined value.
-/

/-- Field Value Set: form data, field name to raw string value, in key
insertion order. -/
abbrev FieldValueSet : Type := List (String × String)

/-- ValidationRule from the source: the check receives the current field
value (none models a missing key, which reads as undefined) and the whole
Field Value Set; message is the error text reported when the check is
false. -/
structure ValidationRule where
  check : Option String → FieldValueSet → Bool
  message : String

/-- ValidationSchema from the source: field name to ordered rule list, in
key insertion order (the iteration order of for..in over a plain
object). -/
abbrev ValidationSchema : Type := List (String × List ValidationRule)

/-- Inner loop of validate: walk the rules in order and return the message
of the first rule whose check is false, if any. -/
def firstFailure (value : Option String) (data : FieldValueSet) :
    List ValidationRule → Option String
  | [] => none
  | r :: rs => if r.check value data then firstFailure value data rs else some r.message

/-- validate from the source: for each schema field in order, evaluate its
rules against the current value and the full data, and record the message
of the first failing rule, if any. -/
def validate (data : FieldValueSet) : ValidationSchema → List (String × String)
  | [] => []
  | (field, rules) :: rest =>
    match firstFailure (data.lookup field) data rules with
    | some msg => (field, msg) :: validate data rest
    | none => validate data rest

/-- Length of a string counted in UTF-16 code units, as the length
property of a string computes it. -/
def jsLength (s : String) : Nat :=
  s.toList.foldl (fun n c => n + (if c.toNat >= 0x10000 then 2 else 1)) 0

/-- WhiteSpace and LineTerminator code points: the set trimmed by the trim
method of strings and matched by the whitespace class of regular
expressions. -/
def jsWhitespaceChar (c : Char) : Bool :=
  let n := c.toNat
  n == 9 || n == 10 || n == 11 || n == 12 || n == 13 || n == 32 ||
  n == 0xA0 || n == 0x1680 || (0x2000 <= n && n <= 0x200A) ||
  n == 0x2028 || n == 0x2029 || n == 0x202F || n == 0x205F ||
  n == 0x3000 || n == 0xFEFF

/-- Model of the trim method of strings. -/
def jsTrim (s : String) : String :=
  String.mk (((s.toList.dropWhile jsWhitespaceChar).reverse.dropWhile
    jsWhitespaceChar).reverse)

/-- Strict triple-equals comparison of two possibly-undefined strings. -/
def jsStrictEq : Option String → Option String → Bool
  | none, none => true
  | some a, some b => a == b
  | _, _ => false

/-- The test method of a regular expression coerces undefined to the
string spelling the word undefined. -/
def jsCoerce : Option String → String
  | some s => s
  | none => "undefined"

/-- Split a character list at the first element satisfying p; the matching
element is dropped. -/
def splitFirstBy (p : Char → Bool) : List Char → Option (List Char × List Char)
  | [] => none
  | c :: cs =>
    if p c then some ([], cs)
    else (splitFirstBy p cs).map (fun q => (c :: q.1, q.2))

/-- Characters allowed in the parts of the email pattern: anything except
an at sign or whitespace. -/
def isEmailChar (c : Char) : Bool := !(c == '@' || jsWhitespaceChar c)

/-- Model of the anchored email pattern from the source: a nonempty
allowed part, an at sign, then a nonempty allowed part containing an inner
dot with at least one allowed character on each side. -/
def emailTest (s : String) : Bool :=
  match splitFirstBy (fun c => c == '@') s.toList with
  | none => false
  | some (pre, post) =>
    !pre.isEmpty && pre.all isEmailChar &&
    !post.isEmpty && post.all isEmailChar &&
    ((post.drop 1).dropLast.contains '.')

/-- Test for an ASCII lowercase letter anywhere in the string. -/
def hasAsciiLower (s : String) : Bool :=
  s.toList.any (fun c => 97 <= c.toNat && c.toNat <= 122)

/-- Test for an ASCII uppercase letter anywhere in the string. -/
def hasAsciiUpper (s : String) : Bool :=
  s.toList.any (fun c => 65 <= c.toNat && c.toNat <= 90)

/-- Test for an ASCII digit anywhere in the string. -/
def hasAsciiDigit (s : String) : Bool :=
  s.toList.any (fun c => 48 <= c.toNat && c.toNat <= 57)

/-- Result of converting a string to a number: a finite rational, positive
or negative infinity; none models NaN. IEEE double rounding is not
modelled, decimal values are kept exact; the schema only compares them
with 18 and 120. -/
inductive JsNum where
  | num (q : Rat)
  | posInf
  | negInf
deriving DecidableEq

/-- ASCII decimal digit test. -/
def isDigitChar (c : Char) : Bool := 48 <= c.toNat && c.toNat <= 57

/-- Value of a list of decimal digits. -/
def decNatOf (l : List Char) : Nat := l.foldl (fun a c => a * 10 + (c.toNat - 48)) 0

/-- ASCII hexadecimal digit test. -/
def isHexDigitChar (c : Char) : Bool :=
  (48 <= c.toNat && c.toNat <= 57) || (97 <= c.toNat && c.toNat <= 102) ||
    (65 <= c.toNat && c.toNat <= 70)

/-- Value of a hexadecimal digit. -/
def hexDigitVal (c : Char) : Nat :=
  if 48 <= c.toNat && c.toNat <= 57 then c.toNat - 48
  else if 97 <= c.toNat then c.toNat - 87
  else c.toNat - 55

/-- ASCII octal digit test. -/
def isOctDigitChar (c : Char) : Bool := 48 <= c.toNat && c.toNat <= 55

/-- ASCII binary digit test. -/
def isBinDigitChar (c : Char) : Bool := c.toNat == 48 || c.toNat == 49

/-- Value of a nonempty digit list in the given radix, none when empty or
when some character is not a digit of that radix. -/
def parseRadix (r : Nat) (isD : Char → Bool) (dv : Char → Nat) (l : List Char) :
    Option Rat :=
  if l.isEmpty || !(l.all isD) then none
  else some ((l.foldl (fun a c => a * r + dv c) 0 : Nat) : Rat)

/-- Unsigned decimal mantissa: digits with an optional dot and fraction
digits, at least one digit overall. -/
def parseUnsignedDec (l : List Char) : Option Rat :=
  let ip := l.takeWhile isDigitChar
  let rest := l.drop ip.length
  match rest with
  | [] => if ip.isEmpty then none else some ((decNatOf ip : Nat) : Rat)
  | c :: frac =>
    if c == '.' && frac.all isDigitChar && !(ip.isEmpty && frac.isEmpty) then
      some (((decNatOf ip : Nat) : Rat) +
        ((decNatOf frac : Nat) : Rat) / ((10 : Rat) ^ frac.length))
    else none

/-- Signed decimal mantissa. -/
def parseSignedDec (l : List Char) : Option Rat :=
  match l with
  | '+' :: r => parseUnsignedDec r
  | '-' :: r => (parseUnsignedDec r).map (fun q => -q)
  | _ => parseUnsignedDec l

/-- Signed integer exponent. -/
def parseSignedExpInt (l : List Char) : Option Int :=
  match l with
  | '+' :: r => if r.isEmpty || !(r.all isDigitChar) then none else some ((decNatOf r : Nat) : Int)
  | '-' :: r => if r.isEmpty || !(r.all isDigitChar) then none else some (-((decNatOf r : Nat) : Int))
  | _ => if l.isEmpty || !(l.all isDigitChar) then none else some ((decNatOf l : Nat) : Int)

/-- Decimal numeral with an optional exponent part. -/
def parseDecNumber (l : List Char) : Option Rat :=
  match splitFirstBy (fun c => c == 'e' || c == 'E') l with
  | none => parseSignedDec l
  | some (m, e) =>
    match parseSignedDec m, parseSignedExpInt e with
    | some mv, some ev =>
      some (if 0 <= ev then mv * ((10 : Rat) ^ ev.toNat)
        else mv / ((10 : Rat) ^ ((-ev).toNat)))
    | _, _ => none

/-- Model of the Number conversion applied to a string: the input is
trimmed; empty gives zero; Infinity with an optional sign, hexadecimal,
octal and binary literals and signed decimals with exponent are accepted;
everything else is NaN (none). -/
def jsToNumber (s : String) : Option JsNum :=
  let l := ((s.toList.dropWhile jsWhitespaceChar).reverse.dropWhile
    jsWhitespaceChar).reverse
  if l.isEmpty then some (JsNum.num 0)
  else if l == "Infinity".toList || l == "+Infinity".toList then some JsNum.posInf
  else if l == "-Infinity".toList then some JsNum.negInf
  else
    match l with
    | '0' :: x :: rest =>
      if x == 'x' || x == 'X' then
        (parseRadix 16 isHexDigitChar hexDigitVal rest).map JsNum.num
      else if x == 'o' || x == 'O' then
        (parseRadix 8 isOctDigitChar (fun c => c.toNat - 48) rest).map JsNum.num
      else if x == 'b' || x == 'B' then
        (parseRadix 2 isBinDigitChar (fun c => c.toNat - 48) rest).map JsNum.num
      else (parseDecNumber l).map JsNum.num
    | _ => (parseDecNumber l).map JsNum.num

/-- Comparison: the given bound is at most the converted number; false on
NaN and negative infinity. -/
def jsNumGe (x : Option JsNum) (n : Rat) : Bool :=
  match x with
  | some (JsNum.num q) => n <= q
  | some JsNum.posInf => true
  | _ => false

/-- Comparison: the converted number is at most the given bound; false on
NaN and positive infinity. -/
def jsNumLe (x : Option JsNum) (n : Rat) : Bool :=
  match x with
  | some (JsNum.num q) => q <= n
  | some JsNum.negInf => true
  | _ => false

/-- Character class of the unescaped dot in the website pattern: any
character except a line terminator. -/
def dotClass (c : Char) : Bool :=
  !(c.toNat == 10 || c.toNat == 13 || c.toNat == 0x2028 || c.toNat == 0x2029)

/-- Head of the list exists and lies in the dot class. -/
def headDotClass : List Char → Bool
  | [] => false
  | c :: _ => dotClass c

/-- After at least one matched character, look for the literal dot of the
website pattern followed by one more character in the dot class. -/
def urlTailFrom : List Char → Bool
  | [] => false
  | c :: rest => (c == '.' && headDotClass rest) || (dotClass c && urlTailFrom rest)

/-- Matches one or more dot-class characters, a literal dot, then at
least one more dot-class character, at the start of the list. -/
def urlTailStart : List Char → Bool
  | [] => false
  | c :: rest => dotClass c && urlTailFrom rest

/-- Model of the website pattern from the source: an http or https scheme
at the start, then at least one character, a literal dot and at least one
further character; the pattern is not anchored at the end. -/
def websiteMatch (l : List Char) : Bool :=
  if l.take 7 == "http://".toList then urlTailStart (l.drop 7)
  else if l.take 8 == "https://".toList then urlTailStart (l.drop 8)
  else false

/-- Website pattern test on a string. -/
def websiteTest (s : String) : Bool := websiteMatch s.toList

/-- Rules for name from the source. On a missing key the original code
would raise a TypeError when it reads trim of undefined; that branch is
modelled as false and is unreachable for well-typed RegistrationData,
where every field is present. -/
def nameRules : List ValidationRule :=
  [ { check := fun v _ => match v with
        | some s => decide (0 < jsLength (jsTrim s))
        | none => false
      message := "Имя обязательно" },
    { check := fun v _ => match v with
        | some s => decide (2 <= jsLength (jsTrim s))
        | none => false
      message := "Минимум 2 символа" },
    { check := fun v _ => match v with
        | some s => decide (jsLength (jsTrim s) <= 50)
        | none => false
      message := "Максимум 50 символов" } ]

/-- Rules for email from the source; the length read on a missing key is
modelled as in nameRules, the pattern test coerces undefined to a
string. -/
def emailRules : List ValidationRule :=
  [ { check := fun v _ => match v with
        | some s => decide (0 < jsLength s)
        | none => false
      message := "Email обязателен" },
    { check := fun v _ => emailTest (jsCoerce v)
      message := "Некорректный формат email" } ]

/-- Rules for password from the source. -/
def passwordRules : List ValidationRule :=
  [ { check := fun v _ => match v with
        | some s => decide (0 < jsLength s)
        | none => false
      message := "Пароль обязателен" },
    { check := fun v _ => match v with
        | some s => decide (8 <= jsLength s)
        | none => false
      message := "Минимум 8 символов" },
    { check := fun v _ => hasAsciiLower (jsCoerce v)
      message := "Нужна хотя бы одна строчная буква" },
    { check := fun v _ => hasAsciiUpper (jsCoerce v)
      message := "Нужна хотя бы одна заглавная буква" },
    { check := fun v _ => hasAsciiDigit (jsCoerce v)
      message := "Нужна хотя бы одна цифра" } ]

/-- Cross-field rule from the source: the value must be strictly equal to
the password field of the full form data. -/
def confirmMatchesRule : ValidationRule :=
  { check := fun v all => jsStrictEq v (all.lookup "password")
    message := "Пароли не совпадают" }

/-- Rules for confirmPassword from the source. -/
def confirmPasswordRules : List ValidationRule :=
  [ { check := fun v _ => match v with
        | some s => decide (0 < jsLength s)
        | none => false
      message := "Подтвердите пароль" },
    confirmMatchesRule ]

/-- Rules for age from the source; the Number conversion of undefined is
NaN, so the numeric checks are false on a missing key. -/
def ageRules : List ValidationRule :=
  [ { check := fun v _ => match v with
        | some s => decide (0 < jsLength s)
        | none => false
      message := "Возраст обязателен" },
    { check := fun v _ => match v with
        | some s => (jsToNumber s).isSome
        | none => false
      message := "Введите число" },
    { check := fun v _ => match v with
        | some s => jsNumGe (jsToNumber s) 18
        | none => false
      message := "Минимум 18 лет" },
    { check := fun v _ => match v with
        | some s => jsNumLe (jsToNumber s) 120
        | none => false
      message := "Проверьте возраст" } ]

/-- Single rule for the optional website field from the source: an empty
or missing value passes, otherwise the value must match the website
pattern. Undefined and the empty string are both falsy, so the first
disjunct of the original check is true on both. -/
def websiteRules : List ValidationRule :=
  [ { check := fun v _ => match v with
        | some s => s == "" || websiteTest s
        | none => true
      message := "URL должен начинаться с http:// или https://" } ]

/-- registrationSchema from the source, in declaration order. -/
def registrationSchema : ValidationSchema :=
  [ ("name", nameRules), ("email", emailRules), ("password", passwordRules),
    ("confirmPassword", confirmPasswordRules), ("age", ageRules),
    ("website", websiteRules) ]

/-- Submit status of the component. -/
inductive SubmitStatus where
  | idle
  | success
deriving DecidableEq

/-- State of the VanillaValidation component relevant to submission. -/
structure RegState where
  formData : FieldValueSet
  errors : List (String × String)
  touched : List String
  submitStatus : SubmitStatus

/-- handleSubmit from the source: mark every key of the form data as
touched, run the full validation and store the report; when the report is
nonempty, return without changing the submit status, otherwise set it to
success. -/
def handleSubmit (s : RegState) : RegState :=
  let validationErrors := validate s.formData registrationSchema
  { formData := s.formData
    errors := validationErrors
    touched := s.formData.map Prod.fst
    submitStatus :=
      if validationErrors.isEmpty then SubmitStatus.success else s.submitStatus }

/-- Lookup misses every list whose keys avoid the requested one. -/
theorem lookup_eq_none_of_not_mem {β : Type} (f : String) :
    ∀ l : List (String × β), f ∉ l.map Prod.fst → l.lookup f = none := by
  intro l
  induction l with
  | nil => intro _; rfl
  | cons p rest ih =>
    intro h
    obtain ⟨k, b⟩ := p
    simp only [List.map_cons, List.mem_cons] at h
    push_neg at h
    have hk : (f == k) = false := by
      simp only [beq_eq_false_iff_ne, ne_eq]
      exact h.1
    simp only [List.lookup, hk]
    exact ih h.2

/-- The keys of the error report form a sublist of the schema keys. -/
theorem validate_keys_sublist (v : FieldValueSet) :
    ∀ s : ValidationSchema, ((validate v s).map Prod.fst).Sublist (s.map Prod.fst) := by
  intro s
  induction s with
  | nil => simp [validate]
  | cons p rest ih =>
    obtain ⟨g, rules⟩ := p
    cases hff : firstFailure (v.lookup g) v rules with
    | none =>
      simp only [validate, hff, List.map_cons]
      exact ih.cons g
    | some m =>
      simp only [validate, hff, List.map_cons]
      exact ih.cons₂ g

/-- With pairwise distinct schema keys, the report entry of a field is
exactly the first failure of its own rule list, independent of every
other field. -/
theorem lookup_validate (v : FieldValueSet) (f : String) :
    ∀ s : ValidationSchema, (s.map Prod.fst).Nodup →
      (validate v s).lookup f =
        (s.lookup f).bind (fun rules => firstFailure (v.lookup f) v rules) := by
  intro s
  induction s with
  | nil => intro _; rfl
  | cons p rest ih =>
    intro hnd
    obtain ⟨g, rules⟩ := p
    simp only [List.map_cons, List.nodup_cons] at hnd
    by_cases hgf : f = g
    · subst hgf
      cases hff : firstFailure (v.lookup f) v rules with
      | some m =>
        simp only [validate, hff, List.lookup, beq_self_eq_true]
        simp [hff]
      | none =>
        simp only [validate, hff, List.lookup, beq_self_eq_true]
        simp only [Option.some_bind, hff]
        have hg : f ∉ (validate v rest).map Prod.fst := fun hmem =>
          hnd.1 ((validate_keys_sublist v rest).subset hmem)
        exact lookup_eq_none_of_not_mem f _ hg
    · have hgfb : (f == g) = false := by
        simp only [beq_eq_false_iff_ne, ne_eq]; exact hgf
      cases hff : firstFailure (v.lookup g) v rules with
      | some m =>
        simp only [validate, hff, List.lookup, hgfb]
        exact ih hnd.2
      | none =>
        simp only [validate, hff, List.lookup, hgfb]
        exact ih hnd.2

/-- A rule list has no failure exactly when every rule passes. -/
theorem firstFailure_eq_none_iff (x : Option String) (d : FieldValueSet) :
    ∀ rules : List ValidationRule,
      firstFailure x d rules = none ↔ ∀ r ∈ rules, r.check x d = true := by
  intro rules
  induction rules with
  | nil => simp [firstFailure]
  | cons r rs ih =>
    by_cases h : r.check x d
    · simp [firstFailure, h, ih]
    · simp only [firstFailure, h, if_neg, Bool.false_eq_true, if_false]
      constructor
      · intro hsome; exact absurd hsome (by simp)
      · intro hall
        exact absurd (hall r (by simp)) (by simp [h])

/-- The first failure is the rule at the earliest failing index. -/
theorem firstFailure_eq_message (x : Option String) (d : FieldValueSet) :
    ∀ (rules : List ValidationRule) (i : Nat) (r : ValidationRule),
      rules[i]? = some r →
      (∀ r' ∈ rules.take i, r'.check x d = true) →
      r.check x d = false →
      firstFailure x d rules = some r.message := by
  intro rules
  induction rules with
  | nil => intro i r h _ _; simp at h
  | cons r0 rs ih =>
    intro i r hget hpre hfail
    cases i with
    | zero =>
      simp only [List.getElem?_cons_zero, Option.some_inj] at hget
      subst hget
      simp [firstFailure, hfail]
    | succ n =>
      have h0 : r0.check x d = true := hpre r0 (by simp [List.take])
      simp only [firstFailure, h0, if_true]
      exact ih n r (by simpa using hget)
        (fun r' hr' => hpre r' (by simp only [List.take]; exact List.mem_cons_of_mem _ hr'))
        hfail

/-- Rule lists that cannot distinguish the two value and data pairs have
the same first failure. -/
theorem firstFailure_congr (x x' : Option String) (d d' : FieldValueSet) :
    ∀ rules : List ValidationRule,
      (∀ r ∈ rules, r.check x d = r.check x' d') →
      firstFailure x d rules = firstFailure x' d' rules := by
  intro rules
  induction rules with
  | nil => intro _; rfl
  | cons r rs ih =>
    intro h
    have hr := h r (by simp)
    simp only [firstFailure, hr]
    by_cases hc : r.check x' d'
    · simp only [hc, if_true]
      exact ih (fun r' hr' => h r' (List.mem_cons_of_mem _ hr'))
    · simp [hc]

/-- The whole report is empty when every rule of every schema field
passes. -/
theorem validate_eq_nil_of_all_pass (v : FieldValueSet) :
    ∀ s : ValidationSchema,
      (∀ p ∈ s, ∀ r ∈ p.2, r.check (v.lookup p.1) v = true) → validate v s = [] := by
  intro s
  induction s with
  | nil => intro _; rfl
  | cons p rest ih =>
    intro hall
    obtain ⟨g, rules⟩ := p
    have h1 : firstFailure (v.lookup g) v rules = none :=
      (firstFailure_eq_none_iff _ _ rules).mpr (fun r hr => hall (g, rules) (by simp) r hr)
    simp only [validate, h1]
    exact ih (fun p hp => hall p (List.mem_cons_of_mem _ hp))

/-- Lookup distributes over appended data: the right part only matters
when the key misses the left part. -/
theorem lookup_append_cases {β : Type} (g : String) (w : List (String × β)) :
    ∀ v : List (String × β),
      (v ++ w).lookup g =
        match v.lookup g with
        | some x => some x
        | none => w.lookup g := by
  intro v
  induction v with
  | nil => rfl
  | cons p rest ih =>
    obtain ⟨k, b⟩ := p
    cases hk : (g == k) with
    | true => simp [List.lookup, hk]
    | false => simp [List.lookup, hk, ih]

/-- Witness rule: value present and nonempty. -/
def demoRequired : ValidationRule :=
  { check := fun x _ => match x with
      | some s => !(s == "")
      | none => false
    message := "required" }

/-- Witness rule: value present with at least two characters. -/
def demoMin2 : ValidationRule :=
  { check := fun x _ => match x with
      | some s => decide (2 <= s.length)
      | none => false
    message := "too short" }

/-- Witness rule list. -/
def demoRules : List ValidationRule := [demoRequired, demoMin2]

/-- C1: for every field value set v, schema s and field f with at least
one failing rule in s, the report maps f to the message of the earliest
failing rule of f, and f carries at most one message. -/
theorem validate_first_failing_rule_wins
    (v : FieldValueSet) (s : ValidationSchema) (f : String)
    (rules : List ValidationRule) (i : Nat) (r : ValidationRule)
    (hnd : (s.map Prod.fst).Nodup)
    (hs : s.lookup f = some rules)
    (hget : rules[i]? = some r)
    (hpre : ∀ r' ∈ rules.take i, r'.check (v.lookup f) v = true)
    (hfail : r.check (v.lookup f) v = false) :
    (validate v s).lookup f = some r.message ∧
      ((validate v s).map Prod.fst).count f <= 1 := by
  constructor
  · rw [lookup_validate v f s hnd, hs, Option.some_bind]
    exact firstFailure_eq_message (v.lookup f) v rules i r hget hpre hfail
  · have hnodup : ((validate v s).map Prod.fst).Nodup :=
      (validate_keys_sublist v s).nodup hnd
    exact List.nodup_iff_count_le_one.mp hnodup f

theorem validate_first_failing_rule_wins_witness :
    (validate [("a", "")] [("a", demoRules)]).lookup "a" = some "required" ∧
      ((validate [("a", "")] [("a", demoRules)]).map Prod.fst).count "a" <= 1 :=
  validate_first_failing_rule_wins [("a", "")] [("a", demoRules)] "a"
    demoRules 0 demoRequired (by simp) rfl rfl (by simp) rfl

/-- C2: the report never holds a key for a field whose every rule passes;
a field with an empty rule list or absent from the schema never appears;
when every rule of every field passes, the report is empty. -/
theorem validate_no_entry_for_valid_field
    (v : FieldValueSet) (s : ValidationSchema) (f : String) :
    ((s.map Prod.fst).Nodup → ∀ rules, s.lookup f = some rules →
       (∀ r ∈ rules, r.check (v.lookup f) v = true) → (validate v s).lookup f = none)
    ∧ (f ∉ s.map Prod.fst → (validate v s).lookup f = none)
    ∧ ((∀ p ∈ s, ∀ r ∈ p.2, r.check (v.lookup p.1) v = true) → validate v s = []) := by
  refine ⟨?_, ?_, ?_⟩
  · intro hnd rules hs hall
    rw [lookup_validate v f s hnd, hs, Option.some_bind]
    exact (firstFailure_eq_none_iff _ _ rules).mpr hall
  · intro hf
    exact lookup_eq_none_of_not_mem f _
      (fun h => hf ((validate_keys_sublist v s).subset h))
  · exact validate_eq_nil_of_all_pass v s

theorem validate_no_entry_for_valid_field_witness :
    validate [("a", "xy")] [("a", demoRules)] = [] :=
  (validate_no_entry_for_valid_field [("a", "xy")] [("a", demoRules)] "a").2.2
    (by
      intro p hp r hr
      simp only [List.mem_singleton] at hp
      subst hp
      simp only [demoRules, List.mem_cons, List.mem_singleton, List.not_mem_nil,
        or_false] at hr
      rcases hr with hr | hr <;> subst hr <;> rfl)

/-- C5: two schemas with the same field to rule-list mapping give reports
that agree as mappings on every field, whatever the key enumeration
order; the entry of a field depends only on that field. -/
theorem validate_key_order_irrelevant
    (v : FieldValueSet) (s1 s2 : ValidationSchema)
    (h1 : (s1.map Prod.fst).Nodup) (h2 : (s2.map Prod.fst).Nodup)
    (hext : ∀ f, s1.lookup f = s2.lookup f) :
    ∀ f, (validate v s1).lookup f = (validate v s2).lookup f := by
  intro f
  rw [lookup_validate v f s1 h1, lookup_validate v f s2 h2, hext f]

theorem validate_key_order_irrelevant_witness :
    (validate [("a", "x")] [("a", demoRules), ("b", [demoRequired])]).lookup "a" =
      (validate [("a", "x")] [("b", [demoRequired]), ("a", demoRules)]).lookup "a" :=
  validate_key_order_irrelevant [("a", "x")]
    [("a", demoRules), ("b", [demoRequired])]
    [("b", [demoRequired]), ("a", demoRules)]
    (by simp) (by simp)
    (by
      intro f
      by_cases ha : f = "a"
      · subst ha; rfl
      · by_cases hb : f = "b"
        · subst hb; rfl
        · have ha2 : (f == "a") = false := by
            simp only [beq_eq_false_iff_ne, ne_eq]; exact ha
          have hb2 : (f == "b") = false := by
            simp only [beq_eq_false_iff_ne, ne_eq]; exact hb
          simp [List.lookup, ha2, hb2])
    "a"

/-- C6: validate is deterministic; two runs on identical inputs return
equal reports, the function holding no state across calls. -/
theorem validate_deterministic (v : FieldValueSet) (s : ValidationSchema)
    (r1 r2 : List (String × String))
    (h1 : r1 = validate v s) (h2 : r2 = validate v s) : r1 = r2 :=
  h1.trans h2.symm

theorem validate_deterministic_witness :
    validate [("a", "")] [("a", demoRules)] = validate [("a", "")] [("a", demoRules)] :=
  validate_deterministic [("a", "")] [("a", demoRules)] _ _ rfl rfl

/-- C3 counterexample: with password empty and confirmPassword missing,
the cross-field rule compares undefined with the empty string and fails,
while on the data extended with an empty confirmPassword it passes; so a
missing key is not evaluated like an empty string. -/
theorem validate_missing_key_not_empty_string :
    validate [("password", "")] [("confirmPassword", [confirmMatchesRule])] ≠
      validate ([("password", "")] ++ [("confirmPassword", "")])
        [("confirmPassword", [confirmMatchesRule])] := by
  decide

/-- C3 amended: a missing key reads as undefined (none), and the report
equals the one on the data extended with the empty string for that key
exactly when no rule of the schema can tell undefined from the empty
string in the value argument or see the extension through the full data
argument. -/
theorem validate_missing_key_amended
    (v : FieldValueSet) (s : ValidationSchema) (f : String)
    (hf : f ∉ v.map Prod.fst)
    (h1 : ∀ p ∈ s, ∀ r ∈ p.2,
      r.check none (v ++ [(f, "")]) = r.check (some "") (v ++ [(f, "")]))
    (h2 : ∀ p ∈ s, ∀ r ∈ p.2, ∀ x, r.check x v = r.check x (v ++ [(f, "")])) :
    v.lookup f = none ∧ validate v s = validate (v ++ [(f, "")]) s := by
  refine ⟨lookup_eq_none_of_not_mem f v hf, ?_⟩
  induction s with
  | nil => rfl
  | cons p rest ih =>
    obtain ⟨g, rules⟩ := p
    have hlook := lookup_append_cases g [(f, "")] v
    have hstep : firstFailure (v.lookup g) v rules =
        firstFailure ((v ++ [(f, "")]).lookup g) (v ++ [(f, "")]) rules := by
      by_cases hgf : g = f
      · subst hgf
        have hvg : v.lookup g = none := lookup_eq_none_of_not_mem g v hf
        have hvg2 : (v ++ [(g, "")]).lookup g = some "" := by
          rw [hlook, hvg]; simp [List.lookup]
        rw [hvg, hvg2]
        calc firstFailure none v rules
            = firstFailure none (v ++ [(g, "")]) rules :=
              firstFailure_congr none none v (v ++ [(g, "")]) rules
                (fun r hr => h2 (g, rules) (by simp) r hr none)
          _ = firstFailure (some "") (v ++ [(g, "")]) rules :=
              firstFailure_congr none (some "") (v ++ [(g, "")]) (v ++ [(g, "")]) rules
                (fun r hr => h1 (g, rules) (by simp) r hr)
      · have hfg : (g == f) = false := by
          simp only [beq_eq_false_iff_ne, ne_eq]; exact hgf
        have hvg2 : (v ++ [(f, "")]).lookup g = v.lookup g := by
          rw [hlook]
          cases hv : v.lookup g with
          | some x => rfl
          | none => simp [List.lookup, hfg]
        rw [hvg2]
        exact firstFailure_congr _ _ v (v ++ [(f, "")]) rules
          (fun r hr => h2 (g, rules) (by simp) r hr _)
    simp only [validate, ← hstep]
    cases hff : firstFailure (v.lookup g) v rules with
    | some m =>
      have := ih (fun p hp r hr => h1 p (List.mem_cons_of_mem _ hp) r hr)
        (fun p hp r hr x => h2 p (List.mem_cons_of_mem _ hp) r hr x)
      rw [this]
    | none =>
      exact ih (fun p hp r hr => h1 p (List.mem_cons_of_mem _ hp) r hr)
        (fun p hp r hr x => h2 p (List.mem_cons_of_mem _ hp) r hr x)

theorem validate_missing_key_amended_witness :
    List.lookup "website" ([] : FieldValueSet) = none ∧
      validate [] [("website", websiteRules)] =
        validate ([] ++ [("website", "")]) [("website", websiteRules)] :=
  validate_missing_key_amended [] [("website", websiteRules)] "website"
    (by simp)
    (by
      intro p hp r hr
      simp only [List.mem_singleton] at hp
      subst hp
      simp only [websiteRules, List.mem_singleton] at hr
      subst hr
      rfl)
    (by
      intro p hp r hr x
      simp only [List.mem_singleton] at hp
      subst hp
      simp only [websiteRules, List.mem_singleton] at hr
      subst hr
      rfl)

/-- C4: on every submission attempt, every field of the form data is
marked touched, the full report is recomputed and stored, the status
becomes success when the report is empty, and stays unchanged when the
report is nonempty. -/
theorem handleSubmit_spec (s : RegState) :
    (∀ f ∈ s.formData.map Prod.fst, f ∈ (handleSubmit s).touched)
    ∧ (handleSubmit s).errors = validate s.formData registrationSchema
    ∧ (validate s.formData registrationSchema = [] →
        (handleSubmit s).submitStatus = SubmitStatus.success)
    ∧ (validate s.formData registrationSchema ≠ [] →
        (handleSubmit s).submitStatus = s.submitStatus) := by
  refine ⟨fun f hf => ?_, rfl, fun h => ?_, fun h => ?_⟩
  · simpa [handleSubmit] using hf
  · simp [handleSubmit, h]
  · have : (validate s.formData registrationSchema).isEmpty = false := by
      cases hv : validate s.formData registrationSchema with
      | nil => exact absurd hv h
      | cons a l => rfl
    simp [handleSubmit, this]

/-- Form data of the component at mount: all six fields empty. -/
def emptyRegistrationData : FieldValueSet :=
  [("name", ""), ("email", ""), ("password", ""), ("confirmPassword", ""),
    ("age", ""), ("website", "")]

/-- State of the component at mount. -/
def initialRegState : RegState :=
  ⟨emptyRegistrationData, [], [], SubmitStatus.idle⟩

theorem handleSubmit_spec_witness :
    (handleSubmit initialRegState).submitStatus = SubmitStatus.idle :=
  (handleSubmit_spec initialRegState).2.2.2 (by decide)

/-- Keys of the registration schema are pairwise distinct. -/
theorem registrationSchema_keys_nodup : (registrationSchema.map Prod.fst).Nodup := by
  decide

/-- C8: under the registration schema, when password and confirmPassword
both hold the value Abcdefg1 the report has no confirmPassword entry,
whatever the other fields hold; when confirmPassword holds a different
value, the report maps confirmPassword to the configured mismatch
message. -/
theorem validate_confirmPassword_cross_field (v : FieldValueSet)
    (hp : v.lookup "password" = some "Abcdefg1") :
    (v.lookup "confirmPassword" = some "Abcdefg1" →
      (validate v registrationSchema).lookup "confirmPassword" = none)
    ∧ (v.lookup "confirmPassword" = some "different" →
      (validate v registrationSchema).lookup "confirmPassword" =
        some "Пароли не совпадают") := by
  have hl := lookup_validate v "confirmPassword" registrationSchema
    registrationSchema_keys_nodup
  have hsch : registrationSchema.lookup "confirmPassword" =
      some confirmPasswordRules := rfl
  rw [hsch, Option.some_bind] at hl
  constructor
  · intro hc
    rw [hl, hc]
    simp only [confirmPasswordRules, confirmMatchesRule, firstFailure]
    rw [hp]
    rfl
  · intro hc
    rw [hl, hc]
    simp only [confirmPasswordRules, confirmMatchesRule, firstFailure]
    rw [hp]
    rfl

theorem validate_confirmPassword_cross_field_witness :
    (validate [("password", "Abcdefg1"), ("confirmPassword", "Abcdefg1")]
      registrationSchema).lookup "confirmPassword" = none :=
  (validate_confirmPassword_cross_field
    [("password", "Abcdefg1"), ("confirmPassword", "Abcdefg1")] rfl).1 rfl

/-- C9: under the registration schema, the report has no website entry on
an empty website value, maps website to the configured message on the
value not-a-url, and has no website entry on a well-formed address. -/
theorem validate_website_scenarios (v : FieldValueSet) (w : String)
    (hw : v.lookup "website" = some w) :
    (w = "" → (validate v registrationSchema).lookup "website" = none)
    ∧ (w = "not-a-url" → (validate v registrationSchema).lookup "website" =
        some "URL должен начинаться с http:// или https://")
    ∧ (w = "https://example.com" →
        (validate v registrationSchema).lookup "website" = none) := by
  have hl := lookup_validate v "website" registrationSchema
    registrationSchema_keys_nodup
  have hsch : registrationSchema.lookup "website" = some websiteRules := rfl
  rw [hsch, Option.some_bind] at hl
  refine ⟨fun h => ?_, fun h => ?_, fun h => ?_⟩ <;> subst h <;> rw [hl, hw] <;> rfl

theorem validate_website_scenarios_witness :
    (validate [("website", "not-a-url")] registrationSchema).lookup "website" =
      some "URL должен начинаться с http:// или https://" :=
  (validate_website_scenarios [("website", "not-a-url")] "not-a-url" rfl).2.1 rfl

/-- Without a dot in the list there is no literal dot to match. -/
theorem urlTailFrom_eq_false_of_not_mem :
    ∀ l : List Char, ('.') ∉ l → urlTailFrom l = false := by
  intro l
  induction l with
  | nil => intro _; rfl
  | cons c rest ih =>
    intro h
    simp only [List.mem_cons] at h
    push_neg at h
    have hc : (c == '.') = false := by
      simp only [beq_eq_false_iff_ne, ne_eq]
      exact fun hcd => h.1 hcd.symm
    simp only [urlTailFrom, hc, Bool.false_and, Bool.false_or, ih h.2,
      Bool.and_false]

/-- Without a dot in the list the website tail pattern cannot match. -/
theorem urlTailStart_eq_false_of_not_mem :
    ∀ l : List Char, ('.') ∉ l → urlTailStart l = false := by
  intro l
  cases l with
  | nil => intro _; rfl
  | cons c rest =>
    intro h
    simp only [List.mem_cons] at h
    push_neg at h
    simp only [urlTailStart, urlTailFrom_eq_false_of_not_mem rest h.2,
      Bool.and_false]

/-- C10: the website pattern demands, after the scheme, at least one
character, a dot, then one more character; so every value that starts
with the http or https scheme but has no dot afterwards is reported with
the website message, although the message only asks for the scheme. -/
theorem website_pattern_requires_dot (v : FieldValueSet) (w t : String)
    (hw : v.lookup "website" = some w)
    (ht : w.toList = "http://".toList ++ t.toList ∨
      w.toList = "https://".toList ++ t.toList)
    (hnodot : ('.') ∉ t.toList) :
    (validate v registrationSchema).lookup "website" =
      some "URL должен начинаться с http:// или https://" := by
  have hl := lookup_validate v "website" registrationSchema
    registrationSchema_keys_nodup
  have hsch : registrationSchema.lookup "website" = some websiteRules := rfl
  rw [hsch, Option.some_bind] at hl
  have htail : urlTailStart t.toList = false :=
    urlTailStart_eq_false_of_not_mem t.toList hnodot
  have hmatch : websiteTest w = false := by
    unfold websiteTest websiteMatch
    rcases ht with ht | ht
    · rw [ht]
      have h7 : "http://".toList = ['h', 't', 't', 'p', ':', '/', '/'] := rfl
      rw [h7]
      simp only [List.take, List.drop, List.cons_append, List.nil_append]
      simpa using htail
    · rw [ht]
      have h8 : "https://".toList = ['h', 't', 't', 'p', 's', ':', '/', '/'] := rfl
      rw [h8]
      simp only [List.take, List.drop, List.cons_append, List.nil_append]
      simpa using htail
  have hne : (w == "") = false := by
    simp only [beq_eq_false_iff_ne, ne_eq]
    intro hempty
    subst hempty
    rcases ht with ht | ht <;> simp at ht
  rw [hl, hw]
  simp only [websiteRules, firstFailure, hne, hmatch, Bool.or_self,
    Bool.false_or]
  rfl

theorem website_pattern_requires_dot_witness :
    (validate [("website", "http://localhost")] registrationSchema).lookup
        "website" =
      some "URL должен начинаться с http:// или https://" :=
  website_pattern_requires_dot [("website", "http://localhost")]
    "http://localhost" "localhost" rfl (Or.inl rfl) (by decide)
